import Mathlib

/-
Verification of the AOIetl granule-selection pipeline.

This file gives a shallow embedding of the core of the repository
(src/aoietl/build_paths.py, process.py, process_on_blobs.py, utils.py,
data_types.py) and proves or refutes the frozen specification claims
about it.  External collaborators (rasterio, h5py, shapely, fsspec,
geopandas, Azure blob clients) are modelled as function parameters of
the embedded operations; everything the repository itself computes is
translated directly from the Python source.
-/

namespace AOIetl

/-! ## String and path utilities (pathlib semantics used by the source) -/

/-- Last component of a path, `pathlib.PurePath.name`:
the characters after the last slash. -/
def basename (s : String) : String :=
  ⟨(s.data.reverse.takeWhile (fun c => c ≠ '/')).reverse⟩

/-- Index of the last occurrence of `c` in `cs` (`str.rfind`). -/
def lastIdxOf (c : Char) (cs : List Char) : Option Nat :=
  ((List.range cs.length).filter (fun i => cs.getD i ' ' = c)).getLast?

/-- `pathlib.PurePath.suffix`: with `n` the last path component and
`i = n.rfind('.')`, the suffix is `n[i:]` when `0 < i < len(n) - 1`
and the empty string otherwise. -/
def pathSuffix (s : String) : String :=
  let n := (basename s).data
  match lastIdxOf '.' n with
  | none => ""
  | some i => if 0 < i ∧ i < n.length - 1 then ⟨n.drop i⟩ else ""

/-- `pathlib.PurePath.with_suffix`: drop the current suffix of the last
component and append the new one. -/
def withSuffix (s : String) (suf : String) : String :=
  ⟨s.data.take (s.data.length - (pathSuffix s).data.length)⟩ ++ suf

/-- Python `sub in s` substring containment, over character lists. -/
def listContains (s sub : List Char) : Bool :=
  sub.isPrefixOf s ||
    match s with
    | [] => false
    | _ :: t => listContains t sub

/-- Python `sub in s` on strings. -/
def strContains (s sub : String) : Bool :=
  listContains s.data sub.data

/-- Python `s.startswith(p)` on strings. -/
def strStarts (s p : String) : Bool :=
  p.data.isPrefixOf s.data

/-- Python `s.endswith(p)` on strings. -/
def strEnds (s p : String) : Bool :=
  p.data.isSuffixOf s.data

/-! ## Filename grammars (src/aoietl/build_paths.py, list_rasters_for_date)

The source extracts the acquisition date with two fixed regexes:
Sentinel-2 files match `S2.\w+_(\d{8})T\d{6}_` and Landsat files match
`LC.._L2SP_\d{6}_(\d{8})_`, each applied with `re.search` (leftmost
match, greedy `\w+`).  The matchers below implement exactly these two
patterns with Python semantics: `.` is any character except newline,
`\w` is a word character, `\w+` is greedy with backtracking. -/

def isWordChar (c : Char) : Bool :=
  c.isAlphanum || c = '_'

/-- Tail of the Sentinel-2 pattern after the backtrack point:
`_(\d{8})T\d{6}_`.  Returns the captured 8-digit group. -/
def s2Tail (cs : List Char) : Option (List Char) :=
  match cs with
  | '_' :: rest =>
    let d8 := rest.take 8
    if d8.length = 8 ∧ d8.all Char.isDigit then
      match rest.drop 8 with
      | 'T' :: r2 =>
        let d6 := r2.take 6
        if d6.length = 6 ∧ d6.all Char.isDigit then
          match r2.drop 6 with
          | '_' :: _ => some d8
          | _ => none
        else none
      | _ => none
    else none
  | _ => none

/-- Greedy `\w+` with backtracking: try consuming `k` word characters,
largest first, then match `s2Tail` on the remainder. -/
def s2TryWord (cs : List Char) : Nat → Option (List Char)
  | 0 => none
  | k + 1 =>
    match s2Tail (cs.drop (k + 1)) with
    | some g => some g
    | none => s2TryWord cs k

/-- Match `S2.\w+_(\d{8})T\d{6}_` anchored at the head of `cs`. -/
def s2MatchAt (cs : List Char) : Option (List Char) :=
  match cs with
  | 'S' :: '2' :: c :: rest =>
    if c ≠ '\n' then s2TryWord rest ((rest.takeWhile isWordChar).length)
    else none
  | _ => none

/-- `re.search` for the Sentinel-2 pattern: leftmost match wins. -/
def s2Search : List Char → Option (List Char)
  | [] => s2MatchAt []
  | c :: t =>
    match s2MatchAt (c :: t) with
    | some g => some g
    | none => s2Search t

/-- Match `LC.._L2SP_\d{6}_(\d{8})_` anchored at the head of `cs`.
Deterministic: the pattern has no quantifier needing backtracking. -/
def lcMatchAt (cs : List Char) : Option (List Char) :=
  match cs with
  | 'L' :: 'C' :: a :: b :: '_' :: 'L' :: '2' :: 'S' :: 'P' :: '_' :: rest =>
    if a ≠ '\n' ∧ b ≠ '\n' then
      let d6 := rest.take 6
      if d6.length = 6 ∧ d6.all Char.isDigit then
        match rest.drop 6 with
        | '_' :: r2 =>
          let d8 := r2.take 8
          if d8.length = 8 ∧ d8.all Char.isDigit then
            match r2.drop 8 with
            | '_' :: _ => some d8
            | _ => none
          else none
        | _ => none
      else none
    else none
  | _ => none

/-- `re.search` for the Landsat pattern. -/
def lcSearch : List Char → Option (List Char)
  | [] => lcMatchAt []
  | c :: t =>
    match lcMatchAt (c :: t) with
    | some g => some g
    | none => lcSearch t

/-- Date extraction of `list_rasters_for_date`: dispatch on the marker
substring (`"S2" in name`, elif `"LC" in name`), then the regex search;
`None` when neither marker is present or the search fails. -/
def extractRasterDate (name : String) : Option (List Char) :=
  if strContains name "S2" then s2Search name.data
  else if strContains name "LC" then lcSearch name.data
  else none

/-! ## Granule Locator (list_rasters_for_date) -/

/-- One entry of a directory listing as seen by `Path.iterdir`. -/
structure DirEntry where
  name : String
  isFile : Bool
deriving DecidableEq, Repr

/-- The filtering loop of `list_rasters_for_date`: for each recognised
`.tif` file, extract the date and keep the file when it equals the
target date string. -/
def lrLoop (target : List Char) : List DirEntry → List String
  | [] => []
  | f :: fs =>
    match extractRasterDate f.name with
    | some d => if d = target then f.name :: lrLoop target fs else lrLoop target fs
    | none => lrLoop target fs

/-- `list_rasters_for_date` on the listing of `root/dataset_name`:
first the comprehension keeping regular files with suffix `.tif`,
then the date-matching loop.  `target` is
`config_date.strftime("%Y%m%d")`. -/
def list_rasters_for_date (entries : List DirEntry) (target : String) : List String :=
  lrLoop target.data (entries.filter (fun e => e.isFile && pathSuffix e.name = ".tif"))

/-! ## Spatial Index Builder, raster kind (build_tile_index)

`rasterio` and `geopandas` are external collaborators: opening a file
is a parameter `openR` returning the native frame (`src.crs`, possibly
absent) and the bounding box (`src.bounds`), and batch reprojection
(`GeoDataFrame.to_crs`) is a geometry-wise transform `toCanon` together
with a failure predicate `canonFails` (for example a missing source
frame).  Coordinates are modelled as integers. -/

/-- An axis-aligned rectangle, `box(left, bottom, right, top)`. -/
structure Rect where
  left : Int
  bottom : Int
  right : Int
  top : Int
deriving DecidableEq, Repr

/-- One row of the tile index: bounds polygon plus the path column,
`{"geometry": make_tile_bounds_geom(src), "path": str(path)}`. -/
structure TileRecord where
  geometry : Rect
  path : String
deriving DecidableEq, Repr

/-- The reading loop of `build_tile_index`: open each path in order,
record its bounds polygon and the stringified path, and keep the first
truthy native frame (`if not raster_crs: raster_crs = src.crs`).  Any
open failure propagates and aborts the whole batch. -/
def readTileRecords (openR : String → Except String (Option String × Rect)) :
    List String → Option String → Except String (List TileRecord × Option String)
  | [], rcrs => .ok ([], rcrs)
  | p :: ps, rcrs =>
    match openR p with
    | .error e => .error e
    | .ok (crs, b) =>
      let rcrs' := if rcrs.isSome then rcrs else crs
      match readTileRecords openR ps rcrs' with
      | .error e => .error e
      | .ok (rest, final) => .ok (⟨b, p⟩ :: rest, final)

/-- `build_tile_index`: read all records, then — only when the recorded
batch frame differs from `"EPSG:4326"` — reproject the whole batch in
one pass (`gdf.to_crs("EPSG:4326")` inside `try`, re-raised as a
`ValueError` on failure).  The final unconditional `gdf.to_crs(4326)`
is a no-op because the frame is already canonical on every surviving
path. -/
def build_tile_index (openR : String → Except String (Option String × Rect))
    (canonFails : Option String → Bool) (toCanon : Option String → Rect → Rect)
    (paths : List String) : Except String (List TileRecord) :=
  match readTileRecords openR paths none with
  | .error e => .error e
  | .ok (records, rcrs) =>
    if rcrs ≠ some "EPSG:4326" then
      if canonFails rcrs then
        .error "Failed to reproject tile index to EPSG:4326"
      else
        .ok (records.map (fun r => { r with geometry := toCanon rcrs r.geometry }))
    else
      .ok records

/-! ## Spatial Index Builder, HDF kind (build_hdf_tile_index)

`h5py` is a collaborator: `hdfOpen` models opening a local file and
reading the two datasets `orbit_info/bounding_polygon_lat1` and
`orbit_info/bounding_polygon_lon1`.  In remote mode the source opens
the file through `fs.open(path) as f` and then subscripts `f` — the
raw filesystem handle — with the dataset names instead of the opened
`h5py.File` object `hdf_file`, which raises a `TypeError` for every
real file-like handle, before any length comparison. -/

/-- The two coordinate arrays of one HDF file. -/
structure HdfData where
  lats : List Int
  lons : List Int
deriving DecidableEq, Repr

/-- One row of the HDF tile index: the polygon ring
`list(zip(lons, lats))` plus the path column. -/
structure HdfRecord where
  ring : List (Int × Int)
  path : String
deriving DecidableEq, Repr

/-- The `TypeError` message raised in remote mode by subscripting the
raw filesystem handle; it does not mention any file path. -/
def hdfSubscriptTypeError : String :=
  "TypeError: fsspec file object is not subscriptable"

/-- `build_hdf_tile_index`.  Local mode reads both arrays, aborts the
whole batch with a `ValueError` naming the file when the lengths
differ, and otherwise appends `zip(lons, lats)` as the record ring.
Remote mode (`fs` given) subscripts the raw handle `f` and therefore
raises `TypeError` on the first file. -/
def build_hdf_tile_index (hdfOpen : String → Except String HdfData) (remote : Bool) :
    List String → Except String (List HdfRecord)
  | [] => .ok []
  | p :: ps =>
    if remote then
      .error hdfSubscriptTypeError
    else
      match hdfOpen p with
      | .error e => .error e
      | .ok d =>
        if d.lats.length ≠ d.lons.length then
          .error ("Latitude and longitude arrays in " ++ p ++ " have different lengths.")
        else
          match build_hdf_tile_index hdfOpen remote ps with
          | .error e => .error e
          | .ok rest => .ok (⟨d.lons.zip d.lats, p⟩ :: rest)

/-! ## AOI Filter (filter_tiles_by_aoi)

Geometry and the `intersects` predicate of shapely are collaborator
parameters; the index row type is generic in the geometry.  The source
wraps the surviving path strings back into `Path`/`UPath` objects — a
token-preserving step — and collapses an empty selection to `None`. -/

/-- A spatial index row with geometry type `G`. -/
structure IndexRecord (G : Type) where
  geometry : G
  path : String

/-- `filter_tiles_by_aoi`: keep the rows whose geometry intersects the
unioned AOI geometry, return their path tokens, or `none` when the
selection is empty. -/
def filter_tiles_by_aoi {G : Type} (intersects : G → G → Bool) (aoi : G)
    (idx : List (IndexRecord G)) : Option (List String) :=
  let paths := (idx.filter (fun r => intersects r.geometry aoi)).map (fun r => r.path)
  if paths.isEmpty then none else some paths

/-- Closed-sense intersection of two axis-aligned rectangles; boundary
touching counts as intersecting, as for shapely `intersects`.  Used to
instantiate the collaborator in concrete witnesses. -/
def Rect.intersectsB (a b : Rect) : Bool :=
  a.left ≤ b.right && b.left ≤ a.right && a.bottom ≤ b.top && b.bottom ≤ a.top

/-! ## Vector Subsetter (read_vector_subset) and VectorFileName

Reading a container with a bounding-box prefilter is a collaborator
(`bboxGpkg`, `bboxParquet`: format-native storage-level prefilter);
the subsetter then keeps the features whose exact geometry intersects
the AOI.  Feature and geometry types are generic. -/

/-- `read_vector_subset`: dispatch on the pathlib suffix over the fixed
closed set; any other suffix is a `ValueError`.  On a supported suffix
read the bbox-prefiltered features and keep those intersecting the
AOI. -/
def read_vector_subset {G F : Type} (bboxGpkg bboxParquet : String → List F)
    (featGeom : F → G) (intersects : G → G → Bool) (aoi : G)
    (path : String) : Except String (List F) :=
  if pathSuffix path = ".gpkg" then
    .ok ((bboxGpkg path).filter (fun ft => intersects (featGeom ft) aoi))
  else if pathSuffix path = ".parquet" then
    .ok ((bboxParquet path).filter (fun ft => intersects (featGeom ft) aoi))
  else
    .error ("Unsupported vector file type: " ++ pathSuffix path ++
      ". Only .gpkg and .parquet are supported.")

/-- The `__post_init__` validation of `VectorFileName`
(src/aoietl/data_types.py): the name must end with `.gpkg` or
`.parquet`, a geopackage may not carry a SQL query, and layer and SQL
query are mutually exclusive. -/
def vectorFileNameCheck (name : String) (layer sqlQuery : Option String) :
    Except String Unit :=
  if ¬ (strEnds name ".gpkg" || strEnds name ".parquet") then
    .error ("VectorFileName.name must end with .gpkg or .parquet, got: " ++ name)
  else if sqlQuery.isSome && strEnds name ".gpkg" then
    .error ("Geopackage files cannot have a SQL query, got: " ++ name)
  else if layer.isSome && sqlQuery.isSome then
    .error ("VectorFileName cannot have both layer and sql_query, got: " ++ name)
  else
    .ok ()

/-! ## Tier Orchestrator (src/aoietl/process.py)

Byte transfer, logging and directory creation are collaborators; the
orchestrator is modelled as producing an event trace (or aborting with
the first uncaught exception).  `store` is byte-level source
existence: opening a missing source for reading raises
`FileNotFoundError`. -/

/-- Observable orchestrator events. -/
inductive Ev where
  | errorLog (msg : String)
  | warnLog (msg : String)
  | infoLog (msg : String)
  | copy (src dest : String)
  | write (dest : String)
deriving DecidableEq, Repr

/-- `copy_raster_files`: for each file, copy it to
`output_dir/tier/raster_type/basename`; a missing primary source
raises and propagates.  For the `landsat` family the source then reads
the sidecar `f.with_suffix(".json")` and writes it to
`dest_json = f.with_suffix('.json')` — the source-side path, not a
path under the output directory; a missing sidecar raises
`FileNotFoundError` inside `try` and is logged as a warning. -/
def copy_raster_files (store : String → Bool) (outDir tierV rasterType : String) :
    List String → Except String (List Ev)
  | [] => .ok []
  | f :: fs =>
    let dest := outDir ++ "/" ++ tierV ++ "/" ++ rasterType ++ "/" ++ basename f
    if store f then
      let side : List Ev :=
        if rasterType = "landsat" then
          if store (withSuffix f ".json") then
            [Ev.copy (withSuffix f ".json") (withSuffix f ".json")]
          else
            [Ev.warnLog ("JSON file not found for raster: " ++ f)]
        else []
      match copy_raster_files store outDir tierV rasterType fs with
      | .error e => .error e
      | .ok rest => .ok (Ev.copy f dest :: side ++ rest)
    else
      .error ("FileNotFoundError: " ++ f)

/-- The collaborators consumed by raster-tier processing. -/
structure RasterWorld where
  dirs : String → Option (List DirEntry)
  store : String → Bool
  openR : String → Except String (Option String × Rect)
  canonFails : Option String → Bool
  toCanon : Option String → Rect → Rect
  intersects : Rect → Rect → Bool
  aoi : Rect

/-- Body of one iteration of `process_rasters_using_paths` after the
listing step: `if rasters:` build the index, filter by AOI, copy;
`else` warn, or raise under the strict policy.  Returns the events of
this iteration. -/
def prBody (W : RasterWorld) (outDir tierV : String) (eflag : Bool)
    (t : String) (rasters : List String) (evs0 : List Ev) :
    Except String (List Ev) :=
  if rasters ≠ [] then
    match build_tile_index W.openR W.canonFails W.toCanon rasters with
    | .error e => .error e
    | .ok tidx =>
      match filter_tiles_by_aoi W.intersects W.aoi
          (tidx.map (fun r => ⟨r.geometry, r.path⟩)) with
      | some filtered =>
        match copy_raster_files W.store outDir tierV t filtered with
        | .error e => .error e
        | .ok cevs => .ok (evs0 ++ Ev.infoLog "Copying files to output" :: cevs)
      | none => .ok (evs0)
  else
    if eflag then
      .error ("No raster files found for " ++ t ++ " in tier " ++ tierV ++ ".")
    else
      .ok (evs0 ++ [Ev.warnLog ("No rasters found: " ++ t)])

/-- One iteration of the raster loop: the `try` around
`list_rasters_for_date`.  A missing dataset directory raises
`FileNotFoundError`, which is logged and — under the lenient policy —
swallowed, after which the iteration continues with the `rasters`
variable still holding the previous iteration's value (it is
initialised once, before the loop).  Returns this iteration's events
and the value of `rasters` after the iteration. -/
def prStep (W : RasterWorld) (baseDir outDir tierV target : String) (eflag : Bool)
    (t : String) (rasters : List String) : Except String (List Ev × List String) :=
  match W.dirs t with
  | none =>
    if eflag then
      .error ("FileNotFoundError: missing dataset directory " ++ t)
    else
      match prBody W outDir tierV eflag t rasters
          [Ev.errorLog ("Error listing rasters for date: " ++ t)] with
      | .error e => .error e
      | .ok evs => .ok (evs, rasters)
  | some entries =>
    let rasters2 := (list_rasters_for_date entries target).map
      (fun n => baseDir ++ "/" ++ t ++ "/" ++ n)
    match prBody W outDir tierV eflag t rasters2 [] with
    | .error e => .error e
    | .ok evs => .ok (evs, rasters2)

/-- The loop of `process_rasters_using_paths` over the declared raster
dataset identifiers, threading the `rasters` variable. -/
def prLoop (W : RasterWorld) (baseDir outDir tierV target : String) (eflag : Bool) :
    List String → List String → Except String (List Ev)
  | [], _ => .ok []
  | t :: ts, rasters =>
    match prStep W baseDir outDir tierV target eflag t rasters with
    | .error e => .error e
    | .ok (evs, rasters2) =>
      match prLoop W baseDir outDir tierV target eflag ts rasters2 with
      | .error e => .error e
      | .ok rest => .ok (evs ++ rest)

/-- `process_rasters_using_paths`: `rasters` starts as the empty list,
declared once before the loop. -/
def process_rasters_using_paths (W : RasterWorld) (baseDir outDir tierV target : String)
    (eflag : Bool) (types : List String) : Except String (List Ev) :=
  prLoop W baseDir outDir tierV target eflag types []

/-- A declared vector file descriptor (its name; layer and query play
no role in the modelled control flow). -/
structure VDecl where
  name : String
deriving DecidableEq, Repr

/-- `process_vectors` (local-path mode, `config.azureRoot` set): for
each declared vector file, check existence, read the AOI subset, warn
when it is empty, and write it to `BASE_OUT_DIR/tier/name`; a missing
declared file warns, or raises under the strict policy. -/
def process_vectors {G F : Type} (exists2 : String → Bool)
    (bboxGpkg bboxParquet : String → List F) (featGeom : F → G)
    (intersects : G → G → Bool) (aoi : G)
    (baseDir outDir tierV : String) (eflag : Bool) :
    List VDecl → Except String (List Ev)
  | [] => .ok []
  | v :: vs =>
    let vpath := baseDir ++ "/" ++ v.name
    if exists2 vpath then
      match read_vector_subset bboxGpkg bboxParquet featGeom intersects aoi vpath with
      | .error e => .error e
      | .ok gdf =>
        let emptyWarn : List Ev :=
          if gdf.isEmpty then
            [Ev.warnLog ("Vector file is empty after AOI filtering: " ++ v.name)]
          else []
        let wev : List Ev :=
          if pathSuffix vpath = ".gpkg" then [Ev.write (outDir ++ "/" ++ tierV ++ "/" ++ v.name)]
          else if pathSuffix vpath = ".parquet" then [Ev.write (outDir ++ "/" ++ tierV ++ "/" ++ v.name)]
          else []
        match process_vectors exists2 bboxGpkg bboxParquet featGeom intersects aoi
            baseDir outDir tierV eflag vs with
        | .error e => .error e
        | .ok rest => .ok (emptyWarn ++ wev ++ rest)
    else
      if eflag then
        .error ("Vector file " ++ v.name ++ " not found in " ++ tierV ++ " tier.")
      else
        match process_vectors exists2 bboxGpkg bboxParquet featGeom intersects aoi
            baseDir outDir tierV eflag vs with
        | .error e => .error e
        | .ok rest => .ok (Ev.warnLog ("Vector file not found: " ++ v.name) :: rest)

/-- `copy_csv_files` (local-path mode): copy each declared tabular file
from `BASE_DIR/name` to `BASE_OUT_DIR/tier/name`; `shutil.copy` on a
missing source raises and propagates. -/
def copy_csv_files (store : String → Bool) (baseDir outDir tierV : String) :
    List String → Except String (List Ev)
  | [] => .ok []
  | n :: ns =>
    let src := baseDir ++ "/" ++ n
    if store src then
      match copy_csv_files store baseDir outDir tierV ns with
      | .error e => .error e
      | .ok rest => .ok (Ev.copy src (outDir ++ "/" ++ tierV ++ "/" ++ n) :: rest)
    else
      .error ("FileNotFoundError: " ++ src)

/-! ## Blob staging run (src/aoietl/process_on_blobs.py)

The blob service client is an external collaborator (credential setup
is out of scope); the staging container state is the list of blob
names in `staging-data`. -/

/-- Observable blob-level operations. -/
inductive BlobOp where
  | del (name : String)
  | download (name : String)
  | copyB (src dst : String)
deriving DecidableEq, Repr

/-- Stable insertion preserving descending length order, matching
`list.sort(key=len, reverse=True)` (ties keep their original order). -/
def insertByLenDesc (x : String) : List String → List String
  | [] => [x]
  | y :: ys =>
    if x.length ≤ y.length then y :: insertByLenDesc x ys else x :: y :: ys

/-- `sorted(key=len, reverse=True)` as a stable insertion sort. -/
def sortByLenDesc (l : List String) : List String :=
  l.foldl (fun acc x => insertByLenDesc x acc) []

/-- One tier of `clear_staging_tiers`: list the blobs under
`tier ++ "/"`, sort them by name length descending, delete each. -/
def clearTier (store : List String) (tier : String) : List BlobOp × List String :=
  let pfx := tier ++ "/"
  ((sortByLenDesc (store.filter (fun b => strStarts b pfx))).map BlobOp.del,
    store.filter (fun b => ¬ strStarts b pfx))

/-- `clear_staging_tiers` over the given tier prefixes, in order. -/
def clear_staging_tiers : List String → List String → List BlobOp × List String
  | store, [] => ([], store)
  | store, t :: ts =>
    ((clearTier store t).1 ++ (clear_staging_tiers (clearTier store t).2 ts).1,
      (clear_staging_tiers (clearTier store t).2 ts).2)

/-- The tier prefixes cleared by `process_on_blobs`. -/
def stagingTiers : List String := ["bronze", "silver", "gold", "platinum"]

/-- `process_on_blobs`: first — unconditionally — clear the four tier
prefixes of the staging container, then download the directive and the
AOI, then run the remainder of the workflow (config parsing,
validation and the per-tier loop), modelled as an arbitrary
continuation `rest` that returns its operations, the final container
state and whether it succeeded.  `downloadOk` models a failure while
downloading the directive. -/
def process_on_blobs (store : List String) (downloadOk : Bool)
    (rest : List String → List BlobOp × List String × Bool) :
    List BlobOp × List String × Bool :=
  let c := clear_staging_tiers store stagingTiers
  if downloadOk then
    let r := rest c.2
    (c.1 ++ BlobOp.download "config" :: BlobOp.download "aoi" :: r.1, r.2.1, r.2.2)
  else
    (c.1 ++ [BlobOp.download "config"], c.2, false)

/-! ## Supporting lemmas -/

/-- The date-matching loop of the locator is the filter by successful
extraction of the target date. -/
theorem lrLoop_eq_filter (target : List Char) (fs : List DirEntry) :
    lrLoop target fs =
      (fs.filter (fun e => extractRasterDate e.name = some target)).map DirEntry.name := by
  induction fs with
  | nil => rfl
  | cons f fs ih =>
    cases h : extractRasterDate f.name with
    | none => simp [lrLoop, h, ih, List.filter_cons]
    | some d =>
      by_cases hd : d = target
      · subst hd
        simp [lrLoop, h, ih, List.filter_cons]
      · simp [lrLoop, h, hd, ih, List.filter_cons]

/-- The locator is the filter by recognised regular `.tif` files whose
extracted date equals the target date. -/
theorem list_rasters_char (entries : List DirEntry) (target : String) :
    list_rasters_for_date entries target =
      (entries.filter (fun e =>
        e.isFile && pathSuffix e.name = ".tif" &&
          extractRasterDate e.name = some target.data)).map DirEntry.name := by
  unfold list_rasters_for_date
  rw [lrLoop_eq_filter, List.filter_filter]
  refine congrArg (List.map DirEntry.name) (List.filter_congr ?_)
  intro a _
  exact Bool.and_comm _ _

/-- The reading loop keeps one record per path, in order, with the
stringified original path. -/
theorem readTileRecords_paths (openR : String → Except String (Option String × Rect))
    (paths : List String) (rcrs : Option String) (recs : List TileRecord)
    (final : Option String)
    (h : readTileRecords openR paths rcrs = .ok (recs, final)) :
    recs.map TileRecord.path = paths := by
  induction paths generalizing rcrs recs final with
  | nil =>
    simp only [readTileRecords, Except.ok.injEq, Prod.mk.injEq] at h
    rw [← h.1]
    rfl
  | cons p ps ih =>
    cases hop : openR p with
    | error e =>
      simp only [readTileRecords, hop] at h
      exact Except.noConfusion h
    | ok v =>
      obtain ⟨crs, b⟩ := v
      simp only [readTileRecords, hop] at h
      cases hrec : readTileRecords openR ps (if rcrs.isSome then rcrs else crs) with
      | error e =>
        simp only [hrec] at h
        exact Except.noConfusion h
      | ok w =>
        obtain ⟨rest, fin⟩ := w
        simp only [hrec, Except.ok.injEq, Prod.mk.injEq] at h
        obtain ⟨h1, _⟩ := h
        rw [← h1, List.map_cons, ih _ _ _ hrec]

/-- An open failure for any path of the batch aborts the reading loop. -/
theorem readTileRecords_error (openR : String → Except String (Option String × Rect))
    (p e : String) (he : openR p = .error e) :
    ∀ (paths : List String), p ∈ paths →
      ∀ rcrs, ∃ e2, readTileRecords openR paths rcrs = .error e2 := by
  intro paths
  induction paths with
  | nil => intro hp; cases hp
  | cons q ps ih =>
    intro hp rcrs
    rcases List.mem_cons.mp hp with h | h
    · subst h
      exact ⟨e, by simp [readTileRecords, he]⟩
    · cases hop : openR q with
      | error e3 => exact ⟨e3, by simp [readTileRecords, hop]⟩
      | ok v =>
        obtain ⟨crs, b⟩ := v
        rcases ih h (if rcrs.isSome then rcrs else crs) with ⟨e2, h2⟩
        exact ⟨e2, by simp [readTileRecords, hop, h2]⟩

/-! ## Claim C1 — Spatial Index Builder: one record per input path -/

/-- C1.  On success both index builders return exactly one record per
input path, in order, whose path field is the original input path
unmodified; and any per-file failure (unreadable raster, failing HDF
read) aborts the whole batch with an error rather than a shorter
result. -/
theorem C1_index_builder_record_per_path :
    (∀ (openR : String → Except String (Option String × Rect)) canonFails toCanon
        (paths : List String) (recs : List TileRecord),
      build_tile_index openR canonFails toCanon paths = .ok recs →
      recs.length = paths.length ∧ recs.map TileRecord.path = paths)
    ∧ (∀ (openR : String → Except String (Option String × Rect)) canonFails toCanon
        (paths : List String) (p e : String), p ∈ paths → openR p = .error e →
      ∃ e2, build_tile_index openR canonFails toCanon paths = .error e2)
    ∧ (∀ (hdfOpen : String → Except String HdfData) (remote : Bool)
        (paths : List String) (recs : List HdfRecord),
      build_hdf_tile_index hdfOpen remote paths = .ok recs →
      recs.length = paths.length ∧ recs.map HdfRecord.path = paths)
    ∧ (∀ (hdfOpen : String → Except String HdfData)
        (paths : List String) (p e : String), p ∈ paths → hdfOpen p = .error e →
      ∃ e2, build_hdf_tile_index hdfOpen false paths = .error e2) := by
  refine ⟨?_, ?_, ?_, ?_⟩
  · intro openR canonFails toCanon paths recs h
    unfold build_tile_index at h
    split at h
    · cases h
    · rename_i records rcrs hrd
      have hpaths := readTileRecords_paths openR paths none records rcrs hrd
      split at h
      · split at h
        · cases h
        · simp only [Except.ok.injEq] at h
          subst h
          have hcomp : (TileRecord.path ∘ fun r =>
              { r with geometry := toCanon rcrs r.geometry }) = TileRecord.path := rfl
          constructor
          · rw [List.length_map, ← hpaths, List.length_map]
          · rw [List.map_map, hcomp, hpaths]
      · simp only [Except.ok.injEq] at h
        subst h
        exact ⟨by rw [← hpaths, List.length_map], hpaths⟩
  · intro openR canonFails toCanon paths p e hp he
    rcases readTileRecords_error openR p e he paths hp none with ⟨e2, h2⟩
    exact ⟨e2, by simp [build_tile_index, h2]⟩
  · intro hdfOpen remote paths recs h
    induction paths generalizing recs with
    | nil =>
      simp only [build_hdf_tile_index, Except.ok.injEq] at h
      subst h; exact ⟨rfl, rfl⟩
    | cons p ps ih =>
      rw [build_hdf_tile_index] at h
      split at h
      · cases h
      · split at h
        · cases h
        · split at h
          · cases h
          · split at h
            · cases h
            · rename_i rest hrec
              simp only [Except.ok.injEq] at h
              subst h
              have hr := ih rest hrec
              exact ⟨by simpa using hr.1, by simp [hr.2]⟩
  · intro hdfOpen paths p e hp he
    induction paths with
    | nil => cases hp
    | cons q ps ih =>
      rcases List.mem_cons.mp hp with h | h
      · subst h
        exact ⟨e, by simp [build_hdf_tile_index, he]⟩
      · cases hop : hdfOpen q with
        | error e3 => exact ⟨e3, by simp [build_hdf_tile_index, hop]⟩
        | ok d =>
          by_cases hlen : d.lats.length ≠ d.lons.length
          · exact ⟨"Latitude and longitude arrays in " ++ q ++ " have different lengths.",
              by simp [build_hdf_tile_index, hop, hlen]⟩
          · rcases ih h with ⟨e2, h2⟩
            exact ⟨e2, by simp [build_hdf_tile_index, hop, hlen, h2]⟩

/-- Witness for C1 at concrete collaborators and batches. -/
theorem C1_index_builder_record_per_path_witness :
    (([(⟨⟨0, 0, 1, 1⟩, "a.tif"⟩ : TileRecord), ⟨⟨0, 0, 1, 1⟩, "b.tif"⟩]).map
        TileRecord.path = ["a.tif", "b.tif"])
    ∧ (∃ e2, build_hdf_tile_index (fun _ => .error "unreadable") false ["x.hdf"]
        = .error e2) := by
  constructor
  · exact (C1_index_builder_record_per_path.1
      (fun _ => .ok (some "EPSG:4326", ⟨0, 0, 1, 1⟩)) (fun _ => false) (fun _ r => r)
      ["a.tif", "b.tif"] _ rfl).2
  · exact C1_index_builder_record_per_path.2.2.2
      (fun _ => .error "unreadable") ["x.hdf"] "x.hdf" "unreadable"
      (by simp) rfl

/-! ## Claim C2 — Granule Locator exactness -/

/-- C2.  The locator returns exactly the recognised regular `.tif`
files whose filename encodes the target date under the dataset-specific
grammar (first conjunct, for every directory listing and date), in
particular on a directory holding tiles of two distinct dates it
returns exactly the files dated `D` and excludes the others (middle
conjuncts), and when no filename matches it returns the empty list
rather than an error (last conjunct). -/
theorem C2_locator_exact_date_filter :
    (∀ (entries : List DirEntry) (target : String),
      list_rasters_for_date entries target =
        (entries.filter (fun e =>
          e.isFile && pathSuffix e.name = ".tif" &&
            extractRasterDate e.name = some target.data)).map DirEntry.name)
    ∧ list_rasters_for_date
        [⟨"S2A_MSIL2A_20250401T015631_R117_T51LWC_20250401T043813_tile00.tif", true⟩,
         ⟨"S2A_MSIL2A_20250402T015631_R117_T51LWC_20250402T043813_tile12.tif", true⟩,
         ⟨"LC08_L2SP_120034_20250401_02_T1_tile00.tif", true⟩,
         ⟨"LC08_L2SP_120034_20250402_02_T1_tile12.tif", true⟩,
         ⟨"notes.txt", true⟩, ⟨"random.tif", true⟩] "20250401"
      = ["S2A_MSIL2A_20250401T015631_R117_T51LWC_20250401T043813_tile00.tif",
         "LC08_L2SP_120034_20250401_02_T1_tile00.tif"]
    ∧ list_rasters_for_date
        [⟨"S2A_MSIL2A_20250401T015631_R117_T51LWC_20250401T043813_tile00.tif", true⟩,
         ⟨"S2A_MSIL2A_20250402T015631_R117_T51LWC_20250402T043813_tile12.tif", true⟩,
         ⟨"LC08_L2SP_120034_20250401_02_T1_tile00.tif", true⟩,
         ⟨"LC08_L2SP_120034_20250402_02_T1_tile12.tif", true⟩,
         ⟨"notes.txt", true⟩, ⟨"random.tif", true⟩] "20250402"
      = ["S2A_MSIL2A_20250402T015631_R117_T51LWC_20250402T043813_tile12.tif",
         "LC08_L2SP_120034_20250402_02_T1_tile12.tif"]
    ∧ list_rasters_for_date
        [⟨"S2A_MSIL2A_20250401T015631_R117_T51LWC_20250401T043813_tile00.tif", true⟩,
         ⟨"LC08_L2SP_120034_20250401_02_T1_tile00.tif", true⟩] "20240101"
      = [] := by
  exact ⟨fun entries target => list_rasters_char entries target, by decide, by decide, by decide⟩

/-! ## Claim C9 — AOI Filter idempotence -/

/-- C9.  When every record of a spatial index intersects the AOI, the
filter returns exactly the full list of path tokens, and a second pass
over the already-filtered index returns the identical result. -/
theorem C9_aoi_filter_idempotent {G : Type} (intersects : G → G → Bool) (aoi : G)
    (idx : List (IndexRecord G)) (hne : idx ≠ [])
    (hall : ∀ r ∈ idx, intersects r.geometry aoi = true) :
    filter_tiles_by_aoi intersects aoi idx = some (idx.map (fun r => r.path))
    ∧ filter_tiles_by_aoi intersects aoi
        (idx.filter (fun r => intersects r.geometry aoi)) =
      filter_tiles_by_aoi intersects aoi idx := by
  have hfilter : idx.filter (fun r => intersects r.geometry aoi) = idx :=
    List.filter_eq_self.mpr hall
  constructor
  · unfold filter_tiles_by_aoi
    rw [hfilter]
    cases idx with
    | nil => exact absurd rfl hne
    | cons a l => rfl
  · rw [hfilter]

/-- The concrete AOI rectangle of the C9 witness. -/
def c9AoiRect : Rect := ⟨0, 0, 10, 10⟩

/-- A concrete index: one tile strictly inside the AOI, one touching
its boundary along the edge `x = 10`. -/
def c9Index : List (IndexRecord Rect) :=
  [⟨⟨2, 2, 5, 5⟩, "inside.tif"⟩, ⟨⟨10, 0, 20, 10⟩, "touching.tif"⟩]

/-- Witness for C9 on a concrete two-tile index, one tile only
boundary-touching. -/
theorem C9_aoi_filter_idempotent_witness :
    filter_tiles_by_aoi Rect.intersectsB c9AoiRect c9Index
      = some ["inside.tif", "touching.tif"]
    ∧ filter_tiles_by_aoi Rect.intersectsB c9AoiRect
        (c9Index.filter (fun r => Rect.intersectsB r.geometry c9AoiRect)) =
      filter_tiles_by_aoi Rect.intersectsB c9AoiRect c9Index := by
  have h := C9_aoi_filter_idempotent Rect.intersectsB c9AoiRect c9Index
    (List.cons_ne_nil _ _) (by decide)
  exact ⟨h.1, h.2⟩

/-! ## Claim C4 — HDF coordinate-length mismatch -/

/-- A collaborator whose every file yields three latitudes but only two
longitudes (the spec's own test vector). -/
def c4MismatchHdf : String → Except String HdfData :=
  fun _ => .ok ⟨[40, 40, 45], [-110, -105]⟩

/-- C4 at the failing input.  In local mode the mismatch aborts the
batch with the `ValueError` naming the offending file.  In
remote-filesystem mode the source subscripts the raw filesystem handle
`f` instead of the opened `hdf_file`, so the very same batch fails with
a `TypeError` that never names the file and never reaches the length
check — the remote half of the claim does not hold on the code. -/
theorem C4_hdf_mismatch_remote_divergence :
    build_hdf_tile_index c4MismatchHdf false ["/path/to/file_0.hdf"]
      = .error "Latitude and longitude arrays in /path/to/file_0.hdf have different lengths."
    ∧ strContains
        "Latitude and longitude arrays in /path/to/file_0.hdf have different lengths."
        "/path/to/file_0.hdf" = true
    ∧ build_hdf_tile_index c4MismatchHdf true ["/path/to/file_0.hdf"]
      = .error hdfSubscriptTypeError
    ∧ strContains hdfSubscriptTypeError "/path/to/file_0.hdf" = false := by
  exact ⟨rfl, by decide, rfl, by decide⟩

/-! ## Claim C10 — staging tiers cleared before anything else -/

/-- A blob name lies under one of the four cleared tier prefixes. -/
def tierPrefixed (b : String) : Bool :=
  stagingTiers.any (fun t => strStarts b (t ++ "/"))

/-- Membership is preserved by the stable descending-length insertion. -/
theorem mem_insertByLenDesc (x a : String) (l : List String) :
    a ∈ insertByLenDesc x l ↔ a = x ∨ a ∈ l := by
  induction l with
  | nil => simp [insertByLenDesc]
  | cons y ys ih =>
    by_cases h : x.length ≤ y.length
    · simp only [insertByLenDesc, if_pos h, List.mem_cons, ih]
      tauto
    · simp only [insertByLenDesc, if_neg h, List.mem_cons]

/-- Membership is preserved by the descending-length sort. -/
theorem mem_sortByLenDesc (a : String) (l : List String) :
    a ∈ sortByLenDesc l ↔ a ∈ l := by
  suffices h : ∀ acc, a ∈ l.foldl (fun acc x => insertByLenDesc x acc) acc ↔
      a ∈ acc ∨ a ∈ l by
    simpa [sortByLenDesc] using h []
  induction l with
  | nil => intro acc; simp
  | cons x xs ih =>
    intro acc
    rw [List.foldl_cons, ih (insertByLenDesc x acc), mem_insertByLenDesc]
    simp only [List.mem_cons]
    tauto

/-- Every operation emitted by the clearing pass is a deletion. -/
theorem clear_ops_are_del (ts : List String) :
    ∀ (s : List String), ∀ op ∈ (clear_staging_tiers s ts).1, ∃ n, op = BlobOp.del n := by
  induction ts with
  | nil => intro s op hop; cases hop
  | cons t ts ih =>
    intro s op hop
    rcases List.mem_append.mp hop with h | h
    · rcases List.mem_map.mp h with ⟨c, _, hcb⟩
      exact ⟨c, hcb.symm⟩
    · exact ih _ op h

/-- A deletion for blob `b` is emitted exactly when `b` is in the
container and lies under one of the cleared prefixes. -/
theorem clear_del_mem (ts : List String) :
    ∀ (s : List String) (b : String),
      BlobOp.del b ∈ (clear_staging_tiers s ts).1 ↔
        b ∈ s ∧ ts.any (fun t => strStarts b (t ++ "/")) = true := by
  induction ts with
  | nil => intro s b; simp [clear_staging_tiers]
  | cons t ts ih =>
    intro s b
    simp only [clear_staging_tiers, List.mem_append, List.any_cons, Bool.or_eq_true]
    constructor
    · rintro (h | h)
      · rcases List.mem_map.mp h with ⟨c, hc, hcb⟩
        have hcb2 : c = b := by
          cases hcb
          rfl
        subst hcb2
        have hmem := (mem_sortByLenDesc _ _).mp hc
        rcases List.mem_filter.mp hmem with ⟨hs, hpfx⟩
        exact ⟨hs, Or.inl hpfx⟩
      · rcases (ih _ b).mp h with ⟨hs, hany⟩
        rcases List.mem_filter.mp hs with ⟨hs2, _⟩
        exact ⟨hs2, Or.inr hany⟩
    · rintro ⟨hs, hpfx | hany⟩
      · refine Or.inl (List.mem_map.mpr ⟨b, ?_, rfl⟩)
        exact (mem_sortByLenDesc _ _).mpr (List.mem_filter.mpr ⟨hs, hpfx⟩)
      · by_cases hp : strStarts b (t ++ "/") = true
        · refine Or.inl (List.mem_map.mpr ⟨b, ?_, rfl⟩)
          exact (mem_sortByLenDesc _ _).mpr (List.mem_filter.mpr ⟨hs, hp⟩)
        · refine Or.inr ((ih _ b).mpr ⟨?_, hany⟩)
          exact List.mem_filter.mpr ⟨hs, by simpa using hp⟩

/-- After the clearing pass the container holds exactly the blobs that
were present and lie under none of the cleared prefixes. -/
theorem clear_state_mem (ts : List String) :
    ∀ (s : List String) (b : String),
      b ∈ (clear_staging_tiers s ts).2 ↔
        b ∈ s ∧ ts.all (fun t => !(strStarts b (t ++ "/"))) = true := by
  induction ts with
  | nil => intro s b; simp [clear_staging_tiers]
  | cons t ts ih =>
    intro s b
    simp only [clear_staging_tiers, List.all_cons, Bool.and_eq_true]
    rw [ih]
    constructor
    · rintro ⟨hs, hall⟩
      rcases List.mem_filter.mp hs with ⟨hs2, hnot⟩
      exact ⟨hs2, by simpa using hnot, hall⟩
    · rintro ⟨hs, hnot, hall⟩
      exact ⟨List.mem_filter.mpr ⟨hs, by simpa using hnot⟩, hall⟩

/-- C10.  Every invocation of `process_on_blobs` first — before the
directive download and before any copy — emits exactly the deletions
of the blobs under the `bronze/`, `silver/`, `gold/` and `platinum/`
prefixes of the staging container, and the container state seen by the
remainder of the run holds no blob under those prefixes, whatever the
remainder does and whether or not it (or the download) fails. -/
theorem C10_staging_cleared_before_run :
    ∀ (store : List String) (downloadOk : Bool)
      (rest : List String → List BlobOp × List String × Bool),
      (∀ op ∈ (clear_staging_tiers store stagingTiers).1, ∃ n, op = BlobOp.del n)
      ∧ (∀ b, BlobOp.del b ∈ (clear_staging_tiers store stagingTiers).1 ↔
          b ∈ store ∧ tierPrefixed b = true)
      ∧ (∀ b ∈ (clear_staging_tiers store stagingTiers).2, tierPrefixed b = false)
      ∧ (process_on_blobs store downloadOk rest).1 =
          (clear_staging_tiers store stagingTiers).1 ++
            (if downloadOk then
              BlobOp.download "config" :: BlobOp.download "aoi" ::
                (rest (clear_staging_tiers store stagingTiers).2).1
             else [BlobOp.download "config"]) := by
  intro store downloadOk rest
  refine ⟨clear_ops_are_del stagingTiers store, ?_, ?_, ?_⟩
  · intro b
    exact clear_del_mem stagingTiers store b
  · intro b hb
    have h := ((clear_state_mem stagingTiers store b).mp hb).2
    rw [List.all_eq_true] at h
    rw [tierPrefixed]
    rw [List.any_eq_false]
    intro t ht
    have := h t ht
    simpa using this
  · cases downloadOk <;> rfl

/-- Witness for C10: a container holding two staged blobs and one
configuration blob, with a remainder that fails after staging a new
blob. -/
theorem C10_staging_cleared_before_run_witness :
    BlobOp.del "bronze/a.tif" ∈
      (clear_staging_tiers ["bronze/a.tif", "silver/b/c.tif", "config/c.yaml"]
        stagingTiers).1
    ∧ (process_on_blobs ["bronze/a.tif", "silver/b/c.tif", "config/c.yaml"] true
        (fun s => ([BlobOp.copyB "gold/src.tif" "gold/dst.tif"], s, false))).1 =
      (clear_staging_tiers ["bronze/a.tif", "silver/b/c.tif", "config/c.yaml"]
        stagingTiers).1 ++
        [BlobOp.download "config", BlobOp.download "aoi",
          BlobOp.copyB "gold/src.tif" "gold/dst.tif"] := by
  have h := C10_staging_cleared_before_run
    ["bronze/a.tif", "silver/b/c.tif", "config/c.yaml"] true
    (fun s => ([BlobOp.copyB "gold/src.tif" "gold/dst.tif"], s, false))
  refine ⟨(h.2.1 "bronze/a.tif").mpr ⟨by decide, by decide⟩, h.2.2.2⟩

/-! ## Claim C5 — batch reprojection is driven by the first file's frame -/

/-- The native frame the reading loop records for the batch: the first
truthy `src.crs` encountered, scanning the batch in order. -/
def recordedCrs (openR : String → Except String (Option String × Rect)) :
    List String → Option String
  | [] => none
  | p :: ps =>
    match openR p with
    | .error _ => none
    | .ok (crs, _) => if crs.isSome then crs else recordedCrs openR ps

/-- On success the frame returned by the reading loop is the seed frame
when truthy, and otherwise the first truthy frame of the batch. -/
theorem readTileRecords_crs (openR : String → Except String (Option String × Rect)) :
    ∀ (paths : List String) (rcrs0 : Option String) (recs : List TileRecord)
      (rcrs : Option String),
      readTileRecords openR paths rcrs0 = .ok (recs, rcrs) →
      rcrs = if rcrs0.isSome then rcrs0 else recordedCrs openR paths := by
  intro paths
  induction paths with
  | nil =>
    intro rcrs0 recs rcrs h
    simp only [readTileRecords, Except.ok.injEq, Prod.mk.injEq] at h
    cases rcrs0 <;> simp [← h.2, recordedCrs]
  | cons p ps ih =>
    intro rcrs0 recs rcrs h
    cases hop : openR p with
    | error e =>
      simp only [readTileRecords, hop] at h
      exact Except.noConfusion h
    | ok v =>
      obtain ⟨crs, b⟩ := v
      simp only [readTileRecords, hop] at h
      cases hrec : readTileRecords openR ps (if rcrs0.isSome then rcrs0 else crs) with
      | error e =>
        simp only [hrec] at h
        exact Except.noConfusion h
      | ok w =>
        obtain ⟨rest, fin⟩ := w
        simp only [hrec, Except.ok.injEq, Prod.mk.injEq] at h
        obtain ⟨_, h2⟩ := h
        subst h2
        have hthis := ih (if rcrs0.isSome then rcrs0 else crs) rest fin hrec
        cases h0 : rcrs0 with
        | some c0 =>
          subst h0
          simpa using hthis
        | none =>
          subst h0
          simp only [Option.isSome_none, Bool.false_eq_true, if_false] at hthis ⊢
          rw [hthis]
          cases hc : crs with
          | some c => simp [recordedCrs, hop, hc]
          | none => simp [recordedCrs, hop, hc]

/-- The raster-open collaborator of the C5 counterexample: the first
file is natively canonical, the second natively UTM zone 33N. -/
def c5OpenR : String → Except String (Option String × Rect) :=
  fun p =>
    if p = "a.tif" then .ok (some "EPSG:4326", ⟨0, 0, 1, 1⟩)
    else .ok (some "EPSG:32633", ⟨500000, 4000000, 600000, 4100000⟩)

/-- A non-trivial reprojection collaborator. -/
def c5Shift : Option String → Rect → Rect :=
  fun _ r => ⟨r.left + 3, r.bottom + 3, r.right + 3, r.top + 3⟩

/-- Counterexample to C5 as stated: the batch holds a file (`b.tif`)
whose native frame is not the canonical one, yet the returned index
keeps its rectangle unreprojected — because only the first file's
frame is inspected, no batch reprojection happens at all, so not every
record is expressed in the canonical frame. -/
theorem C5_reprojection_counterexample :
    build_tile_index c5OpenR (fun _ => false) c5Shift ["a.tif", "b.tif"]
      = .ok [⟨⟨0, 0, 1, 1⟩, "a.tif"⟩, ⟨⟨500000, 4000000, 600000, 4100000⟩, "b.tif"⟩]
    ∧ c5OpenR "b.tif" = .ok (some "EPSG:32633", ⟨500000, 4000000, 600000, 4100000⟩)
    ∧ (some "EPSG:32633" : Option String) ≠ some "EPSG:4326"
    ∧ c5Shift (some "EPSG:32633") ⟨500000, 4000000, 600000, 4100000⟩
        ≠ ⟨500000, 4000000, 600000, 4100000⟩ := by
  exact ⟨rfl, rfl, by decide, by decide⟩

/-- C5 amended.  The batch frame is the first truthy native frame of
the batch; reprojection is decided by that recorded frame alone: when
it is not canonical (and the library call succeeds) the whole batch is
reprojected in a single pass after all boxes have been read, and when
it is canonical nothing is reprojected, regardless of the later files'
frames. -/
theorem C5_first_frame_batch_reprojection :
    ∀ (openR : String → Except String (Option String × Rect))
      (canonFails : Option String → Bool) (toCanon : Option String → Rect → Rect)
      (paths : List String) (recs : List TileRecord) (rcrs : Option String),
      readTileRecords openR paths none = .ok (recs, rcrs) →
      rcrs = recordedCrs openR paths
      ∧ (rcrs ≠ some "EPSG:4326" → canonFails rcrs = false →
          build_tile_index openR canonFails toCanon paths =
            .ok (recs.map (fun r => { r with geometry := toCanon rcrs r.geometry })))
      ∧ (rcrs = some "EPSG:4326" →
          build_tile_index openR canonFails toCanon paths = .ok recs) := by
  intro openR canonFails toCanon paths recs rcrs h
  refine ⟨?_, ?_, ?_⟩
  · simpa using readTileRecords_crs openR paths none recs rcrs h
  · intro hne hcf
    unfold build_tile_index
    rw [h]
    simp [hne, hcf]
  · intro heq
    unfold build_tile_index
    rw [h]
    simp [heq]

/-- Witness for the amended C5 on a one-file batch natively in UTM:
the recorded frame is non-canonical, so the batch is reprojected. -/
theorem C5_first_frame_batch_reprojection_witness :
    build_tile_index (fun _ => .ok (some "EPSG:32633", ⟨0, 0, 1, 1⟩))
        (fun _ => false) c5Shift ["x.tif"]
      = .ok [⟨⟨3, 3, 4, 4⟩, "x.tif"⟩] := by
  have h := C5_first_frame_batch_reprojection
    (fun _ => .ok (some "EPSG:32633", ⟨0, 0, 1, 1⟩)) (fun _ => false) c5Shift
    ["x.tif"] [⟨⟨0, 0, 1, 1⟩, "x.tif"⟩] (some "EPSG:32633") rfl
  exact h.2.1 (by decide) rfl

/-! ## Claim C8 — closed extension set for vector sources -/

/-- Counterexample to C8 as stated: the declared name `".gpkg"` has an
empty pathlib extension — outside the closed set — yet directive
construction accepts it, because the constructor tests `endswith`, not
the extension. -/
theorem C8_extension_counterexample :
    vectorFileNameCheck ".gpkg" none none = .ok ()
    ∧ pathSuffix ".gpkg" = ""
    ∧ ¬ (pathSuffix ".gpkg" = ".gpkg" ∨ pathSuffix ".gpkg" = ".parquet") := by
  exact ⟨rfl, by decide, by decide⟩

/-- C8 amended.  Directive construction rejects exactly the declared
names that end in neither `.gpkg` nor `.parquet` (so the bare names
`".gpkg"`/`".parquet"`, whose extension is empty, still pass); the
Vector Subsetter raises for every path whose extension is outside the
closed set and accepts every path whose extension is in it, never
rejecting on extension grounds. -/
theorem C8_extension_closed_set :
    (∀ (name : String) (layer sql : Option String),
      (strEnds name ".gpkg" || strEnds name ".parquet") = false →
      vectorFileNameCheck name layer sql =
        .error ("VectorFileName.name must end with .gpkg or .parquet, got: " ++ name))
    ∧ (∀ (name : String),
      (strEnds name ".gpkg" || strEnds name ".parquet") = true →
      vectorFileNameCheck name none none = .ok ())
    ∧ (∀ {G F : Type} (bboxGpkg bboxParquet : String → List F) (featGeom : F → G)
        (intersects : G → G → Bool) (aoi : G) (path : String),
      pathSuffix path ≠ ".gpkg" → pathSuffix path ≠ ".parquet" →
      read_vector_subset bboxGpkg bboxParquet featGeom intersects aoi path =
        .error ("Unsupported vector file type: " ++ pathSuffix path ++
          ". Only .gpkg and .parquet are supported."))
    ∧ (∀ {G F : Type} (bboxGpkg bboxParquet : String → List F) (featGeom : F → G)
        (intersects : G → G → Bool) (aoi : G) (path : String),
      (pathSuffix path = ".gpkg" ∨ pathSuffix path = ".parquet") →
      ∃ feats, read_vector_subset bboxGpkg bboxParquet featGeom intersects aoi path
        = .ok feats) := by
  refine ⟨?_, ?_, ?_, ?_⟩
  · intro name layer sql hends
    simp [vectorFileNameCheck, hends]
  · intro name hends
    simp [vectorFileNameCheck, hends]
  · intro G F bboxGpkg bboxParquet featGeom intersects aoi path h1 h2
    simp [read_vector_subset, h1, h2]
  · intro G F bboxGpkg bboxParquet featGeom intersects aoi path h
    rcases h with h | h
    · exact ⟨(bboxGpkg path).filter (fun ft => intersects (featGeom ft) aoi),
        by simp [read_vector_subset, h]⟩
    · by_cases hg : pathSuffix path = ".gpkg"
      · exact ⟨(bboxGpkg path).filter (fun ft => intersects (featGeom ft) aoi),
          by simp [read_vector_subset, hg]⟩
      · exact ⟨(bboxParquet path).filter (fun ft => intersects (featGeom ft) aoi),
          by simp [read_vector_subset, hg, h]⟩

/-- Witness for the amended C8 on concrete names and paths. -/
theorem C8_extension_closed_set_witness :
    vectorFileNameCheck "roads.shp" none none =
      .error "VectorFileName.name must end with .gpkg or .parquet, got: roads.shp"
    ∧ vectorFileNameCheck "roads.gpkg" none none = .ok ()
    ∧ read_vector_subset (fun _ => ([] : List Rect)) (fun _ => []) id
        Rect.intersectsB ⟨0, 0, 10, 10⟩ "roads.shp" =
      .error "Unsupported vector file type: .shp. Only .gpkg and .parquet are supported."
    ∧ ∃ feats, read_vector_subset (fun _ => ([] : List Rect)) (fun _ => []) id
        Rect.intersectsB ⟨0, 0, 10, 10⟩ "roads.parquet" = .ok feats := by
  refine ⟨C8_extension_closed_set.1 "roads.shp" none none (by decide),
    C8_extension_closed_set.2.1 "roads.gpkg" (by decide), ?_, ?_⟩
  · exact C8_extension_closed_set.2.2.1 (fun _ => ([] : List Rect)) (fun _ => []) id
      Rect.intersectsB ⟨0, 0, 10, 10⟩ "roads.shp" (by decide) (by decide)
  · exact C8_extension_closed_set.2.2.2 (fun _ => ([] : List Rect)) (fun _ => []) id
      Rect.intersectsB ⟨0, 0, 10, 10⟩ "roads.parquet" (Or.inr (by decide))

/-! ## Claim C6 — missing sidecar is always a warning -/

/-- The trace produced by copying a landsat batch whose sidecars are
all missing: one primary copy and one warning per granule. -/
def c6Trace (outDir tierV : String) : List String → List Ev
  | [] => []
  | f :: fs =>
    Ev.copy f (outDir ++ "/" ++ tierV ++ "/" ++ "landsat" ++ "/" ++ basename f)
      :: Ev.warnLog ("JSON file not found for raster: " ++ f)
      :: c6Trace outDir tierV fs

/-- The listing for dataset `t` succeeds and matches at least one file
for the target date (no lookup-miss can occur for `t`). -/
def listingOkB (W : RasterWorld) (target t : String) : Bool :=
  match W.dirs t with
  | none => false
  | some entries => !(list_rasters_for_date entries target).isEmpty

/-- The body of one raster iteration does not consult the policy flag
when the listed batch is non-empty. -/
theorem prBody_flag_irrelevant (W : RasterWorld) (outDir tierV t : String)
    (rasters : List String) (evs0 : List Ev) (h : rasters ≠ []) :
    prBody W outDir tierV true t rasters evs0 =
      prBody W outDir tierV false t rasters evs0 := by
  unfold prBody
  rw [if_pos h, if_pos h]

/-- Without lookup-misses the whole raster loop is independent of the
policy flag. -/
theorem prLoop_flag_irrelevant (W : RasterWorld) (baseDir outDir tierV target : String) :
    ∀ (types : List String) (rasters : List String),
      (∀ t ∈ types, listingOkB W target t = true) →
      prLoop W baseDir outDir tierV target true types rasters =
        prLoop W baseDir outDir tierV target false types rasters := by
  intro types
  induction types with
  | nil => intro rasters _; rfl
  | cons t ts ih =>
    intro rasters hok
    have hokt := hok t (List.mem_cons_self t ts)
    have hokts : ∀ u ∈ ts, listingOkB W target u = true :=
      fun u hu => hok u (List.mem_cons_of_mem t hu)
    cases hd : W.dirs t with
    | none =>
      simp only [listingOkB, hd] at hokt
      exact Bool.noConfusion hokt
    | some entries =>
      simp only [listingOkB, hd] at hokt
      have ihx : ∀ r, prLoop W baseDir outDir tierV target true ts r =
          prLoop W baseDir outDir tierV target false ts r := fun r => ih r hokts
      have hne : (list_rasters_for_date entries target).map
          (fun n => baseDir ++ "/" ++ t ++ "/" ++ n) ≠ [] := by
        intro hnil
        rw [List.map_eq_nil_iff] at hnil
        rw [hnil] at hokt
        simp at hokt
      simp only [prLoop, prStep, hd]
      rw [prBody_flag_irrelevant W outDir tierV t _ [] hne]
      simp only [ihx]

/-- C6.  A missing sidecar is only ever a warning: copying a landsat
batch whose primaries exist and whose sidecars are all missing
succeeds, copying every primary and warning once per granule (first
conjunct); and when no lookup-miss occurs the run is identical under
both values of the missing-files policy, so the policy value cannot
change sidecar handling (second conjunct). -/
theorem C6_missing_sidecar_always_warns :
    (∀ (store : String → Bool) (outDir tierV : String) (files : List String),
      (∀ f ∈ files, store f = true) →
      (∀ f ∈ files, store (withSuffix f ".json") = false) →
      copy_raster_files store outDir tierV "landsat" files =
        .ok (c6Trace outDir tierV files))
    ∧ (∀ (W : RasterWorld) (baseDir outDir tierV target : String) (types : List String),
      (∀ t ∈ types, listingOkB W target t = true) →
      process_rasters_using_paths W baseDir outDir tierV target true types =
        process_rasters_using_paths W baseDir outDir tierV target false types) := by
  constructor
  · intro store outDir tierV files
    induction files with
    | nil => intro _ _; rfl
    | cons f fs ih =>
      intro hp hs
      have hpf := hp f (List.mem_cons_self f fs)
      have hsf := hs f (List.mem_cons_self f fs)
      have hrest := ih (fun g hg => hp g (List.mem_cons_of_mem f hg))
        (fun g hg => hs g (List.mem_cons_of_mem f hg))
      simp only [copy_raster_files, hpf, if_true, hsf, hrest, c6Trace]
      simp [hsf]
  · intro W baseDir outDir tierV target types hok
    exact prLoop_flag_irrelevant W baseDir outDir tierV target types [] hok

/-- The world of the C6 witness: one landsat granule, present, whose
sidecar is absent. -/
def c6World : RasterWorld :=
  { dirs := fun _ => some [⟨"LC08_L2SP_120034_20250401_02_T1_tile00.tif", true⟩],
    store := fun s => s = "/blob/bronze/landsat/LC08_L2SP_120034_20250401_02_T1_tile00.tif",
    openR := fun _ => .ok (some "EPSG:4326", ⟨0, 0, 1, 1⟩),
    canonFails := fun _ => false,
    toCanon := fun _ r => r,
    intersects := fun _ _ => true,
    aoi := ⟨0, 0, 10, 10⟩ }

/-- Witness for C6 on the concrete one-granule landsat batch. -/
theorem C6_missing_sidecar_always_warns_witness :
    copy_raster_files c6World.store "/out" "bronze" "landsat"
        ["/blob/bronze/landsat/LC08_L2SP_120034_20250401_02_T1_tile00.tif"]
      = .ok (c6Trace "/out" "bronze"
          ["/blob/bronze/landsat/LC08_L2SP_120034_20250401_02_T1_tile00.tif"])
    ∧ process_rasters_using_paths c6World "/blob/bronze" "/out" "bronze" "20250401"
        true ["landsat"]
      = process_rasters_using_paths c6World "/blob/bronze" "/out" "bronze" "20250401"
        false ["landsat"] := by
  constructor
  · exact C6_missing_sidecar_always_warns.1 c6World.store "/out" "bronze"
      ["/blob/bronze/landsat/LC08_L2SP_120034_20250401_02_T1_tile00.tif"]
      (by decide) (by decide)
  · exact C6_missing_sidecar_always_warns.2 c6World "/blob/bronze" "/out" "bronze"
      "20250401" ["landsat"] (by decide)

/-! ## Claim C3 — lookup-miss handling and the stale `rasters` variable -/

/-- The world of the C3 evaluation: the sentinel2 dataset directory
holds one matching granule, the landsat dataset directory is missing. -/
def c3World : RasterWorld :=
  { dirs := fun t =>
      if t = "sentinel2" then some [⟨"S2A_MSIL2A_20250401T015631_tile00.tif", true⟩]
      else none,
    store := fun s =>
      s = "/blob/bronze/sentinel2/S2A_MSIL2A_20250401T015631_tile00.tif",
    openR := fun _ => .ok (some "EPSG:4326", ⟨0, 0, 1, 1⟩),
    canonFails := fun _ => false,
    toCanon := fun _ r => r,
    intersects := fun _ _ => true,
    aoi := ⟨0, 0, 10, 10⟩ }

/-- C3 at the failing input.  With the lenient policy, after the
landsat directory lookup fails the loop continues inside the same
iteration with `rasters` still holding the sentinel2 listing
(initialised once before the loop), so the sentinel2 granule is
re-indexed and copied under the landsat output directory — state from
the previous item leaks into the failed item instead of the
orchestrator merely logging and moving on.  Under the strict policy
the first miss raises, as the claim says. -/
theorem C3_stale_rasters_after_missing_dir :
    process_rasters_using_paths c3World "/blob/bronze" "/out" "bronze" "20250401"
        false ["sentinel2", "landsat"]
      = .ok
        [Ev.infoLog "Copying files to output",
         Ev.copy "/blob/bronze/sentinel2/S2A_MSIL2A_20250401T015631_tile00.tif"
           "/out/bronze/sentinel2/S2A_MSIL2A_20250401T015631_tile00.tif",
         Ev.errorLog "Error listing rasters for date: landsat",
         Ev.infoLog "Copying files to output",
         Ev.copy "/blob/bronze/sentinel2/S2A_MSIL2A_20250401T015631_tile00.tif"
           "/out/bronze/landsat/S2A_MSIL2A_20250401T015631_tile00.tif",
         Ev.warnLog
           "JSON file not found for raster: /blob/bronze/sentinel2/S2A_MSIL2A_20250401T015631_tile00.tif"]
    ∧ Ev.copy "/blob/bronze/sentinel2/S2A_MSIL2A_20250401T015631_tile00.tif"
        "/out/bronze/landsat/S2A_MSIL2A_20250401T015631_tile00.tif"
      ∈ [Ev.infoLog "Copying files to output",
         Ev.copy "/blob/bronze/sentinel2/S2A_MSIL2A_20250401T015631_tile00.tif"
           "/out/bronze/sentinel2/S2A_MSIL2A_20250401T015631_tile00.tif",
         Ev.errorLog "Error listing rasters for date: landsat",
         Ev.infoLog "Copying files to output",
         Ev.copy "/blob/bronze/sentinel2/S2A_MSIL2A_20250401T015631_tile00.tif"
           "/out/bronze/landsat/S2A_MSIL2A_20250401T015631_tile00.tif",
         Ev.warnLog
           "JSON file not found for raster: /blob/bronze/sentinel2/S2A_MSIL2A_20250401T015631_tile00.tif"]
    ∧ process_rasters_using_paths c3World "/blob/bronze" "/out" "bronze" "20250401"
        true ["sentinel2", "landsat"]
      = .error "FileNotFoundError: missing dataset directory landsat" := by
  exact ⟨rfl, by decide, rfl⟩

/-! ## Claim C7 — where staged artifacts are written -/

/-- The byte store of the C7 counterexample: a landsat granule and its
sidecar, both present at the source. -/
def c7Store : String → Bool :=
  fun s => s = "/blob/bronze/landsat/LC08_a.tif"
    || s = "/blob/bronze/landsat/LC08_a.json"

/-- Counterexample to C7 as stated.  The landsat sidecar is written to
`f.with_suffix('.json')` — the source-side path, outside the output
base — and a staged vector artifact is written to
`<out>/<tier>/<name>`, not `<out>/<tier>/<identifier>/<name>`. -/
theorem C7_output_layout_counterexample :
    copy_raster_files c7Store "/out" "bronze" "landsat" ["/blob/bronze/landsat/LC08_a.tif"]
      = .ok
        [Ev.copy "/blob/bronze/landsat/LC08_a.tif" "/out/bronze/landsat/LC08_a.tif",
         Ev.copy "/blob/bronze/landsat/LC08_a.json" "/blob/bronze/landsat/LC08_a.json"]
    ∧ strStarts "/blob/bronze/landsat/LC08_a.json" "/out" = false
    ∧ process_vectors (fun _ => true) (fun _ => [(⟨1, 1, 2, 2⟩ : Rect)]) (fun _ => [])
        id Rect.intersectsB ⟨0, 0, 10, 10⟩ "/blob/bronze" "/out" "bronze" false
        [⟨"roads.gpkg"⟩]
      = .ok [Ev.write "/out/bronze/roads.gpkg"]
    ∧ "/out/bronze/roads.gpkg" ≠
        "/out" ++ "/" ++ "bronze" ++ "/" ++ "roads.gpkg" ++ "/" ++ "roads.gpkg" := by
  exact ⟨rfl, by decide, rfl, by decide⟩

/-- C7 amended: the actual output layout.  Raster/HDF primaries go to
`<output_base>/<tier>/<dataset>/<basename>`; the only other copy the
raster copier performs is the landsat sidecar, written to the source
path with suffix `.json`; staged vectors go to
`<output_base>/<tier>/<declared-name>`; tabular files go from
`<base>/<name>` to `<output_base>/<tier>/<name>`. -/
theorem C7_actual_output_layout :
    (∀ (store : String → Bool) (outDir tierV ty : String) (files : List String)
        (evs : List Ev),
      copy_raster_files store outDir tierV ty files = .ok evs →
      ∀ s d, Ev.copy s d ∈ evs →
        (s ∈ files ∧ d = outDir ++ "/" ++ tierV ++ "/" ++ ty ++ "/" ++ basename s)
        ∨ (ty = "landsat" ∧ ∃ f ∈ files, s = withSuffix f ".json"
            ∧ d = withSuffix f ".json"))
    ∧ (∀ {G F : Type} (exists2 : String → Bool) (bg bp : String → List F)
        (fg : F → G) (its : G → G → Bool) (aoi : G)
        (baseDir outDir tierV : String) (eflag : Bool) (vds : List VDecl)
        (evs : List Ev),
      process_vectors exists2 bg bp fg its aoi baseDir outDir tierV eflag vds = .ok evs →
      ∀ d, Ev.write d ∈ evs → ∃ v ∈ vds, d = outDir ++ "/" ++ tierV ++ "/" ++ v.name)
    ∧ (∀ (store : String → Bool) (baseDir outDir tierV : String) (names : List String)
        (evs : List Ev),
      copy_csv_files store baseDir outDir tierV names = .ok evs →
      ∀ s d, Ev.copy s d ∈ evs →
        ∃ n ∈ names, s = baseDir ++ "/" ++ n ∧ d = outDir ++ "/" ++ tierV ++ "/" ++ n) := by
  refine ⟨?_, ?_, ?_⟩
  · intro store outDir tierV ty files
    induction files with
    | nil =>
      intro evs h s d hmem
      simp only [copy_raster_files, Except.ok.injEq] at h
      rw [← h] at hmem
      cases hmem
    | cons f fs ih =>
      intro evs h s d hmem
      rw [copy_raster_files] at h
      by_cases hf : store f = true
      · rw [if_pos hf] at h
        cases hrec : copy_raster_files store outDir tierV ty fs with
        | error e =>
          rw [hrec] at h
          simp at h
        | ok rest =>
          rw [hrec] at h
          simp only [Except.ok.injEq] at h
          rw [← h] at hmem
          rcases List.mem_cons.mp hmem with hc | hc
          · injection hc with h1 h2
            subst h1
            subst h2
            exact Or.inl ⟨List.mem_cons_self _ _, rfl⟩
          · rcases List.mem_append.mp hc with hside | hrest
            · by_cases hty : ty = "landsat"
              · rw [if_pos hty] at hside
                by_cases hj : store (withSuffix f ".json") = true
                · rw [if_pos hj] at hside
                  have hev := List.mem_singleton.mp hside
                  injection hev with h1 h2
                  subst h1
                  subst h2
                  exact Or.inr ⟨hty, f, List.mem_cons_self f fs, rfl, rfl⟩
                · rw [if_neg hj] at hside
                  exact Ev.noConfusion (List.mem_singleton.mp hside)
              · rw [if_neg hty] at hside
                cases hside
            · rcases ih rest hrec s d hrest with hl | hr
              · exact Or.inl ⟨List.mem_cons_of_mem f hl.1, hl.2⟩
              · rcases hr with ⟨hty, g, hg, hs2, hd2⟩
                exact Or.inr ⟨hty, g, List.mem_cons_of_mem f hg, hs2, hd2⟩
      · rw [if_neg hf] at h
        exact Except.noConfusion h
  · intro G F exists2 bg bp fg its aoi baseDir outDir tierV eflag vds
    induction vds with
    | nil =>
      intro evs h d hmem
      simp only [process_vectors, Except.ok.injEq] at h
      rw [← h] at hmem
      cases hmem
    | cons v vs ih =>
      intro evs h d hmem
      rw [process_vectors] at h
      by_cases hex : exists2 (baseDir ++ "/" ++ v.name) = true
      · rw [if_pos hex] at h
        cases hread : read_vector_subset bg bp fg its aoi (baseDir ++ "/" ++ v.name) with
        | error e =>
          rw [hread] at h
          simp at h
        | ok gdf =>
          rw [hread] at h
          cases hrec : process_vectors exists2 bg bp fg its aoi baseDir outDir tierV
              eflag vs with
          | error e =>
            rw [hrec] at h
            simp at h
          | ok rest =>
            rw [hrec] at h
            simp only [Except.ok.injEq] at h
            rw [← h] at hmem
            rcases List.mem_append.mp hmem with hw | hrest2
            · rcases List.mem_append.mp hw with hwarn | hwev
              · by_cases hemp : gdf.isEmpty = true
                · rw [if_pos hemp] at hwarn
                  exact Ev.noConfusion (List.mem_singleton.mp hwarn)
                · rw [if_neg hemp] at hwarn
                  cases hwarn
              · by_cases hg : pathSuffix (baseDir ++ "/" ++ v.name) = ".gpkg"
                · rw [if_pos hg] at hwev
                  have hev := List.mem_singleton.mp hwev
                  injection hev with h1
                  subst h1
                  exact ⟨v, List.mem_cons_self v vs, rfl⟩
                · rw [if_neg hg] at hwev
                  by_cases hp : pathSuffix (baseDir ++ "/" ++ v.name) = ".parquet"
                  · rw [if_pos hp] at hwev
                    have hev := List.mem_singleton.mp hwev
                    injection hev with h1
                    subst h1
                    exact ⟨v, List.mem_cons_self v vs, rfl⟩
                  · rw [if_neg hp] at hwev
                    cases hwev
            · rcases ih rest hrec d hrest2 with ⟨w, hw1, hw2⟩
              exact ⟨w, List.mem_cons_of_mem v hw1, hw2⟩
      · rw [if_neg hex] at h
        by_cases hef : eflag = true
        · rw [if_pos hef] at h
          exact Except.noConfusion h
        · rw [if_neg hef] at h
          cases hrec : process_vectors exists2 bg bp fg its aoi baseDir outDir tierV
              eflag vs with
          | error e =>
            rw [hrec] at h
            simp at h
          | ok rest =>
            rw [hrec] at h
            simp only [Except.ok.injEq] at h
            rw [← h] at hmem
            rcases List.mem_cons.mp hmem with hc | hrest2
            · exact Ev.noConfusion hc
            · rcases ih rest hrec d hrest2 with ⟨w, hw1, hw2⟩
              exact ⟨w, List.mem_cons_of_mem v hw1, hw2⟩
  · intro store baseDir outDir tierV names
    induction names with
    | nil =>
      intro evs h s d hmem
      simp only [copy_csv_files, Except.ok.injEq] at h
      rw [← h] at hmem
      cases hmem
    | cons n ns ih =>
      intro evs h s d hmem
      rw [copy_csv_files] at h
      by_cases hn : store (baseDir ++ "/" ++ n) = true
      · rw [if_pos hn] at h
        cases hrec : copy_csv_files store baseDir outDir tierV ns with
        | error e =>
          rw [hrec] at h
          simp at h
        | ok rest =>
          rw [hrec] at h
          simp only [Except.ok.injEq] at h
          rw [← h] at hmem
          rcases List.mem_cons.mp hmem with hc | hrest2
          · injection hc with h1 h2
            subst h1
            subst h2
            exact ⟨n, List.mem_cons_self n ns, rfl, rfl⟩
          · rcases ih rest hrec s d hrest2 with ⟨m, hm1, hm2⟩
            exact ⟨m, List.mem_cons_of_mem n hm1, hm2⟩
      · rw [if_neg hn] at h
        exact Except.noConfusion h

/-- Witness for the amended C7: the primary copy of a sentinel2
granule lands under `<out>/<tier>/<dataset>/`. -/
theorem C7_actual_output_layout_witness :
    ("/blob/a/b.tif" ∈ ["/blob/a/b.tif"]
      ∧ "/out/bronze/sentinel2/b.tif" =
          "/out" ++ "/" ++ "bronze" ++ "/" ++ "sentinel2" ++ "/" ++ basename "/blob/a/b.tif")
    ∨ ("sentinel2" = "landsat"
      ∧ ∃ f ∈ ["/blob/a/b.tif"], "/blob/a/b.tif" = withSuffix f ".json"
          ∧ "/out/bronze/sentinel2/b.tif" = withSuffix f ".json") := by
  exact C7_actual_output_layout.1 (fun _ => true) "/out" "bronze" "sentinel2"
    ["/blob/a/b.tif"]
    [Ev.copy "/blob/a/b.tif" "/out/bronze/sentinel2/b.tif"] rfl
    "/blob/a/b.tif" "/out/bronze/sentinel2/b.tif" (by decide)

end AOIetl
